import Mathlib

/-!
Verification of the configmanager repository (Go): a shallow embedding of
the group tree, the option descriptors, the type-coercion helpers and the
parser pipeline, together with theorems settling the specification claims.

The repository carries several historical variants of the same files; the
embedding below models each variant that a claim refers to, named with a
suffix identifying the variant where needed:
  * `registerOptV1`, `GStateV1` ... the earlier `OptGroup` of group.go
    (value-receiver variant, lines 29-268 of src/group.go);
  * `GState`, `setOptValue`, `deferSetOptValue` ... the later `*OptGroup`
    of group.go (pointer variant with the defer buffer, lines 975-1360);
  * `G7`, `setOptions7` ... the `OptGroup` of src/unnamed/part_007 used by
    the second `Config.Parse` of src/manager.go (lines 898-959);
  * `parseV2` ... that second `Config.Parse`.
Go maps are modelled as association lists; map iteration follows list
order.  Machine integers are modelled as `Int` with explicit two's
complement truncation where the Go code converts between widths.
-/

namespace CfgMgr

/-- Association-list lookup, modelling `m[k]` on a Go map. -/
def lookupA {κ α : Type} [DecidableEq κ] (k : κ) : List (κ × α) → Option α
  | [] => none
  | (k', v) :: rest => if k' = k then some v else lookupA k rest

/-- Association-list update, modelling `m[k] = v` on a Go map. -/
def updateA {κ α : Type} [DecidableEq κ] (k : κ) (v : α) : List (κ × α) → List (κ × α)
  | [] => [(k, v)]
  | (k', v') :: rest => if k' = k then (k, v) :: rest else (k', v') :: updateA k v rest

theorem lookupA_updateA {κ α : Type} [DecidableEq κ] (k k' : κ) (v : α)
    (l : List (κ × α)) :
    lookupA k (updateA k' v l) = if k' = k then some v else lookupA k l := by
  induction l with
  | nil => by_cases h : k' = k <;> simp [updateA, lookupA, h]
  | cons p rest ih =>
    obtain ⟨k0, v0⟩ := p
    by_cases h0 : k0 = k'
    · subst h0
      by_cases h : k0 = k <;> simp [updateA, lookupA, h, ih]
    · by_cases h : k0 = k
      · subst h
        have : ¬ k' = k0 := fun he => h0 he.symm
        simp [updateA, lookupA, h0, this]
      · simp [updateA, lookupA, h0, h, ih]

/-- The dynamic-value universe: the fragment of Go `interface{}` values that
the configuration code of this repository manipulates in the verified
claims (nil, bool, string, int, []string).  Values of other dynamic types
(floats, durations, ...) never arise in the modelled executions.
-/
inductive Val : Type where
  | vnil : Val
  | vbool : Bool → Val
  | vstr : String → Val
  | vint : Int → Val
  | vstrs : List String → Val
  deriving Repr, DecidableEq

/-- Model of `IsZero` from src/utils.go (lines 32-36): `!template.IsTrue(v)`.
`html/template.IsTrue` reports truth as "not the zero of its type"
(false for nil, `false`, `""`, `0` and empty slices). -/
def IsZero : Val → Bool
  | Val.vnil => true
  | Val.vbool b => !b
  | Val.vstr s => s.isEmpty
  | Val.vint n => n == 0
  | Val.vstrs l => l.isEmpty

/-- The string literals that `ToBool` maps to `true` (src/utils.go:61). -/
def trueLits : List String := ["t", "T", "1", "on", "On", "ON", "true", "True", "TRUE"]

/-- The string literals that `ToBool` maps to `false` (src/utils.go:63). -/
def falseLits : List String :=
  ["f", "F", "0", "off", "Off", "OFF", "false", "False", "FALSE", ""]

/-- Model of `ToBool` from src/utils.go (lines 53-70): bools pass through, strings
are matched against the two literal sets, every other string is an error,
and any other value is `!IsZero v`. -/
def ToBool (v : Val) : Except String Bool :=
  match v with
  | Val.vnil => Except.ok false
  | Val.vbool b => Except.ok b
  | Val.vstr s =>
    if s ∈ trueLits then Except.ok true
    else if s ∈ falseLits then Except.ok false
    else Except.error ("unrecognized bool string: " ++ s)
  | v => Except.ok (!IsZero v)

theorem trueLits_falseLits_disjoint : ∀ s ∈ trueLits, s ∉ falseLits := by decide

/-- C8: boolean coercion of a string returns `true` exactly on the nine
true literals, `false` exactly on the nine false literals and the empty
string, and an error on every other string. -/
theorem toBool_string_exact (s : String) :
    (ToBool (Val.vstr s) = Except.ok true ↔ s ∈ trueLits) ∧
    (ToBool (Val.vstr s) = Except.ok false ↔ s ∈ falseLits) ∧
    ((∃ e, ToBool (Val.vstr s) = Except.error e) ↔ s ∉ trueLits ∧ s ∉ falseLits) := by
  by_cases h1 : s ∈ trueLits
  · have h2 : s ∉ falseLits := trueLits_falseLits_disjoint s h1
    refine ⟨?_, ?_, ?_⟩ <;> simp [ToBool, h1, h2]
  · by_cases h2 : s ∈ falseLits
    · refine ⟨?_, ?_, ?_⟩ <;> simp [ToBool, h1, h2]
    · refine ⟨?_, ?_, ?_⟩ <;> simp [ToBool, h1, h2]

/-- Two's-complement truncation of an integer to a signed width `w`,
modelling Go's narrowing conversions `int8(...)`, `int16(...)`, ... . -/
def truncSigned (w : Nat) (n : Int) : Int :=
  (n + 2 ^ (w - 1)).emod (2 ^ w) - 2 ^ (w - 1)

/-- Go `strconv.ParseInt(s, 10, 64)`: optional sign, non-empty decimal
digits, 64-bit range check. -/
def parseInt64 (s : String) : Except String Int :=
  let decode : List Char → Option Nat := fun cs =>
    if cs = [] then none
    else cs.foldl
      (fun acc c =>
        match acc with
        | none => none
        | some n => if c.isDigit then some (n * 10 + (c.toNat - '0'.toNat)) else none)
      (some 0)
  let (neg, ds) :=
    match s.data with
    | '-' :: t => (true, t)
    | '+' :: t => (false, t)
    | t => (false, t)
  match decode ds with
  | none => Except.error ("strconv.ParseInt: parsing " ++ s ++ ": invalid syntax")
  | some n =>
    let v : Int := if neg then -(n : Int) else (n : Int)
    if v < -(2 ^ 63) ∨ 2 ^ 63 - 1 < v then
      Except.error ("strconv.ParseInt: parsing " ++ s ++ ": value out of range")
    else Except.ok v

/-- Go `strconv.ParseUint(s, 10, 64)`: no sign, non-empty decimal digits,
64-bit range check. -/
def parseUint64 (s : String) : Except String Int :=
  let decode : List Char → Option Nat := fun cs =>
    if cs = [] then none
    else cs.foldl
      (fun acc c =>
        match acc with
        | none => none
        | some n => if c.isDigit then some (n * 10 + (c.toNat - '0'.toNat)) else none)
      (some 0)
  match decode s.data with
  | none => Except.error ("strconv.ParseUint: parsing " ++ s ++ ": invalid syntax")
  | some n =>
    if (2 ^ 64 - 1 : Int) < (n : Int) then
      Except.error ("strconv.ParseUint: parsing " ++ s ++ ": value out of range")
    else Except.ok (n : Int)

/-- Model of `ToInt64` from src/utils.go (lines 73-112), restricted to the modelled
value fragment: nil is 0, bools are 0/1, strings go through the decimal
parser, ints pass through; a []string is the `unknown type` error. -/
def ToInt64 (v : Val) : Except String Int :=
  match v with
  | Val.vnil => Except.ok 0
  | Val.vbool b => Except.ok (if b then 1 else 0)
  | Val.vstr s => parseInt64 s
  | Val.vint n => Except.ok n
  | Val.vstrs _ => Except.error "unknown type of []string"

/-- Model of `ToUint64` from src/utils.go (lines 115-154) on the modelled fragment;
an int converts with Go's wrapping `uint64(t)` conversion. -/
def ToUint64 (v : Val) : Except String Int :=
  match v with
  | Val.vnil => Except.ok 0
  | Val.vbool b => Except.ok (if b then 1 else 0)
  | Val.vstr s => parseUint64 s
  | Val.vint n => Except.ok (n.emod (2 ^ 64))
  | Val.vstrs _ => Except.error "unknown type of []string"

/-- Model of `ToString` from src/utils.go (lines 201-248) on the modelled fragment;
[]string falls into the `unknown type` default case as in the source. -/
def ToString (v : Val) : Except String String :=
  match v with
  | Val.vnil => Except.ok ""
  | Val.vstr s => Except.ok s
  | Val.vbool b => Except.ok (if b then "true" else "false")
  | Val.vint n => Except.ok (toString n)
  | Val.vstrs _ => Except.error "unknown type of []string"

/-- Model of `ToStringSlice` from src/utils.go (lines 253-270): a string splits on
commas, each element is trimmed and empty elements are dropped; a []string
passes through; anything else is an error. -/
def ToStringSlice (v : Val) : Except String (List String) :=
  match v with
  | Val.vstr s =>
    Except.ok (((s.splitOn ",").map String.trim).filter (fun e => e ≠ ""))
  | Val.vstrs l => Except.ok l
  | _ => Except.error "unknown type"

/-- Model of `optType` from the option files (src/unnamed/part_008 and the later
variants that add duration/time tags). -/
inductive OptT : Type where
  | noneT | bool | string
  | int | int8 | int16 | int32 | int64
  | uint | uint8 | uint16 | uint32 | uint64
  | float32 | float64 | duration | time
  | strings | ints | int64s | uints | uint64s | float64s | durations | times
  deriving Repr, DecidableEq

/-- Model of `baseOpt` from src/unnamed/part_008 (lines 274-283): name, help, short
name, optional default, type tag and validator chain.  The distinct Go
dynamic types of the signed (resp. unsigned) widths are all represented by
`Val.vint`; see `Val`. -/
structure baseOpt where
  short : String
  name : String
  help : String
  dflt : Option Val
  typ : OptT
  validators : List (Val → Option String)

/-- Model of `parseOpt` from src/unnamed/part_008 (lines 390-446): coerce `data` to
the type tag, then narrow the int/uint result to the tag's width exactly as
the second `switch` of the source does.  Float, duration, time and
numeric-slice coercions lie outside the modelled value fragment (`Val` has
no values of those dynamic types), so those cases are collapsed into an
error; no verified claim exercises them.  The default case is the source's
`don't support the type` error. -/
def parseOpt (data : Val) (t : OptT) : Except String Val :=
  match t with
  | OptT.bool => (ToBool data).map Val.vbool
  | OptT.string => (ToString data).map Val.vstr
  | OptT.int => (ToInt64 data).map Val.vint
  | OptT.int8 => (ToInt64 data).map (fun n => Val.vint (truncSigned 8 n))
  | OptT.int16 => (ToInt64 data).map (fun n => Val.vint (truncSigned 16 n))
  | OptT.int32 => (ToInt64 data).map (fun n => Val.vint (truncSigned 32 n))
  | OptT.int64 => (ToInt64 data).map Val.vint
  | OptT.uint => (ToUint64 data).map Val.vint
  | OptT.uint8 => (ToUint64 data).map (fun n => Val.vint (n.emod (2 ^ 8)))
  | OptT.uint16 => (ToUint64 data).map (fun n => Val.vint (n.emod (2 ^ 16)))
  | OptT.uint32 => (ToUint64 data).map (fun n => Val.vint (n.emod (2 ^ 32)))
  | OptT.uint64 => (ToUint64 data).map Val.vint
  | OptT.strings => (ToStringSlice data).map Val.vstrs
  | OptT.float32 => Except.error "float coercion outside the modelled value fragment"
  | OptT.float64 => Except.error "float coercion outside the modelled value fragment"
  | OptT.duration => Except.error "duration coercion outside the modelled value fragment"
  | OptT.time => Except.error "time coercion outside the modelled value fragment"
  | OptT.ints => Except.error "numeric slice coercion outside the modelled value fragment"
  | OptT.int64s => Except.error "numeric slice coercion outside the modelled value fragment"
  | OptT.uints => Except.error "numeric slice coercion outside the modelled value fragment"
  | OptT.uint64s => Except.error "numeric slice coercion outside the modelled value fragment"
  | OptT.float64s => Except.error "numeric slice coercion outside the modelled value fragment"
  | OptT.durations => Except.error "duration coercion outside the modelled value fragment"
  | OptT.times => Except.error "time coercion outside the modelled value fragment"
  | OptT.noneT => Except.error "don't support the type none"

/-- The record literal assembled inside `newBaseOpt`
(src/unnamed/part_008 lines 287-296), before `o.Default()` runs. -/
def mkBaseOpt (short name : String) (dflt : Option Val) (help : String) (t : OptT) : baseOpt :=
  ⟨short, name, help, dflt, t, []⟩

/-- Whether `baseOpt.Default()` (src/unnamed/part_008 lines 332-379)
returns without panicking on a non-nil default: the stored default must
satisfy the type assertion of the tag's switch case.  For `float64s` the
assertion `._default.([]float64)` fails on every modelled value (there are
no []float64 values in the fragment), exactly as Go panics on any
non-[]float64 dynamic type. -/
def defaultAssert (t : OptT) (d : Val) : Bool :=
  match t, d with
  | OptT.bool, Val.vbool _ => true
  | OptT.string, Val.vstr _ => true
  | OptT.int, Val.vint _ => true
  | OptT.int8, Val.vint _ => true
  | OptT.int16, Val.vint _ => true
  | OptT.int32, Val.vint _ => true
  | OptT.int64, Val.vint _ => true
  | OptT.uint, Val.vint _ => true
  | OptT.uint8, Val.vint _ => true
  | OptT.uint16, Val.vint _ => true
  | OptT.uint32, Val.vint _ => true
  | OptT.uint64, Val.vint _ => true
  | OptT.strings, Val.vstrs _ => true
  | _, _ => false

/-- Model of `newBaseOpt` from src/unnamed/part_008 (lines 287-297): assemble the
record, then run `o.Default()`; a failed default type assertion is the
constructor's panic, modelled as an error. -/
def newBaseOpt (short name : String) (dflt : Option Val) (help : String) (t : OptT) :
    Except String baseOpt :=
  match dflt with
  | none => Except.ok (mkBaseOpt short name dflt help t)
  | some d =>
    if defaultAssert t d then Except.ok (mkBaseOpt short name dflt help t)
    else Except.error ("the default value of the option " ++ name ++ " does not match its type")

/-- Model of `StringsOpt` from src/unnamed/part_008 (lines 518-521): note the
`float64sType` tag in the source. -/
def StringsOpt (short name : String) (dflt : List String) (help : String) :
    Except String baseOpt :=
  newBaseOpt short name (some (Val.vstrs dflt)) help OptT.float64s

/-- Model of `Strings` from src/unnamed/part_008 (lines 618-621). -/
def Strings (name : String) (dflt : List String) (help : String) : Except String baseOpt :=
  newBaseOpt "" name (some (Val.vstrs dflt)) help OptT.strings

/-- C9: the descriptor assembled by `StringsOpt` carries the `[]float64`
type tag while the one assembled by `Strings` carries the `[]string` tag,
and the two constructors are not equivalent (on the same name, default and
help, `StringsOpt` even fails its default type assertion while `Strings`
succeeds). -/
theorem stringsOpt_wrong_type_tag (short name : String) (dflt : List String) (help : String) :
    (mkBaseOpt short name (some (Val.vstrs dflt)) help OptT.float64s).typ = OptT.float64s ∧
    (mkBaseOpt "" name (some (Val.vstrs dflt)) help OptT.strings).typ = OptT.strings ∧
    OptT.float64s ≠ OptT.strings ∧
    StringsOpt short name dflt help ≠ Strings name dflt help := by
  refine ⟨rfl, rfl, by decide, ?_⟩
  simp [StringsOpt, Strings, newBaseOpt, defaultAssert]

/-- Model of `strLenValidator.Validate` from src/validators.go (lines 66-89): the
value must be a string (nil is `the value is nil`, a non-string is `the
value is not string type`) whose length lies between `min` and `max`. -/
def strLenValidator (min max : Int) : Val → Option String := fun v =>
  match v with
  | Val.vnil => some "the value is nil"
  | Val.vstr s =>
    if max < (s.length : Int) ∨ (s.length : Int) < min then
      some ("the length of " ++ s ++ " is " ++ toString s.length ++
        ", not between " ++ toString min ++ " and " ++ toString max)
    else none
  | _ => some "the value is not string type"

/-- Run a validator chain in registration order; the first failure wins
(the loop of `parseOptValue`, src/group.go lines 1112-1121). -/
def runChain : List (Val → Option String) → Val → Option String
  | [], _ => none
  | f :: fs, v =>
    match f v with
    | some e => some e
    | none => runChain fs v

/-- The `option` wrapper of group.go (lines 975-978): the descriptor plus
its CLI marker. -/
structure OptInfo where
  opt : baseOpt
  isCli : Bool

/-- The pointer-variant `OptGroup` of src/group.go (lines 981-992) together
with the `Config` fields it reads (`conf.isZero`, `conf.isRequired`,
`conf.watch`).  `watchOn` models `conf.watch != nil`; every invocation of
the watch callback is recorded in `watchLog`.  `fields` holds the
bound-struct-field mirror: a key is present exactly when a struct field was
bound to the option, and its value is the field's current content. -/
structure GState where
  gname : String
  isZero : Bool
  isRequired : Bool
  watchOn : Bool
  opts : List (String × OptInfo)
  values : List (String × Val)
  fields : List (String × Val)
  defers : List (String × Val)
  ignore : List String
  watchLog : List (String × String × Val)

/-- Model of `parseOptValue` from src/group.go (lines 1089-1124): nil passes
through, the option must exist, the raw value is coerced by the
descriptor's `Parse` and then run through the validator chain.  (The
source also probes the single-`Validator` interface before the chain; the
only descriptor type of this variant, `baseOpt`, does not implement it, so
that type assertion never succeeds and is not modelled.) -/
def parseOptValue (g : GState) (name : String) (v : Val) : Except String Val :=
  if v = Val.vnil then Except.ok Val.vnil
  else
    match lookupA name g.opts with
    | none => Except.error ("no the option " ++ name ++ " in the group " ++ g.gname)
    | some o =>
      match parseOpt v o.opt.typ with
      | Except.error e => Except.error e
      | Except.ok v1 =>
        match runChain o.opt.validators v1 with
        | some e => Except.error e
        | none => Except.ok v1

/-- Model of `_setOptValue` from src/group.go (lines 1126-1141): store into the
value map, mirror into a bound struct field, and invoke the watch
callback when one is installed. -/
def underSetOptValue (g : GState) (name : String) (v : Val) : GState :=
  { g with
    values := updateA name v g.values
    fields :=
      match lookupA name g.fields with
      | some _ => updateA name v g.fields
      | none => g.fields
    watchLog :=
      if g.watchOn then g.watchLog ++ [(g.gname, name, v)] else g.watchLog }

/-- Model of `setOptValue` from src/group.go (lines 1143-1148). -/
def setOptValue (g : GState) (name : String) (v : Val) : GState × Option String :=
  match parseOptValue g name v with
  | Except.error e => (g, some e)
  | Except.ok v1 => (underSetOptValue g name v1, none)

/-- One iteration of the flush loop of `_deferSetOptValue`
(src/group.go lines 1159-1168): store the deferred value and mirror it
into a bound field. -/
def flushOne (g : GState) (nv : String × Val) : GState :=
  { g with
    values := updateA nv.1 nv.2 g.values
    fields :=
      match lookupA nv.1 g.fields with
      | some _ => updateA nv.1 nv.2 g.fields
      | none => g.fields }

/-- Model of `_deferSetOptValue` from src/group.go (lines 1150-1181): walk the
defer buffer from the last entry to the first, storing each entry (so the
first-deferred entry is stored last), clear the buffer, then announce
every flushed entry through the watch callback in that same reversed
order. -/
def deferFlush (g : GState) : GState :=
  let cache := g.defers.reverse
  let g1 := cache.foldl flushOne g
  { g1 with
    defers := []
    watchLog :=
      if g1.watchOn then
        g1.watchLog ++ cache.map (fun nv => (g1.gname, nv.1, nv.2))
      else g1.watchLog }

/-- Model of `deferSetOptValue` from src/group.go (lines 1183-1196): names on the
ignore list commit immediately; otherwise the value is parsed and
validated, and appended to the defer buffer only when it is non-zero. -/
def deferSetOptValue (g : GState) (name : String) (v : Val) : GState × Option String :=
  if name ∈ g.ignore then setOptValue g name v
  else
    match parseOptValue g name v with
    | Except.error e => (g, some e)
    | Except.ok v1 =>
      if IsZero v1 then (g, none)
      else ({ g with defers := g.defers ++ [(name, v1)] }, none)

/-- Modelled from the spec: `baseOpt.Zero()` — the zero value of the
option's type, used by the `conf.isZero` branch of `checkRequiredOption`.
Its implementation is not under src/ (only the tests in
src/unnamed/part_003 exercise it); the zero values follow those tests
(false, "", 0, empty slice).  No claim is decided by this branch. -/
def zeroOf (t : OptT) : Option Val :=
  match t with
  | OptT.bool => some (Val.vbool false)
  | OptT.string => some (Val.vstr "")
  | OptT.int => some (Val.vint 0)
  | OptT.int8 => some (Val.vint 0)
  | OptT.int16 => some (Val.vint 0)
  | OptT.int32 => some (Val.vint 0)
  | OptT.int64 => some (Val.vint 0)
  | OptT.uint => some (Val.vint 0)
  | OptT.uint8 => some (Val.vint 0)
  | OptT.uint16 => some (Val.vint 0)
  | OptT.uint32 => some (Val.vint 0)
  | OptT.uint64 => some (Val.vint 0)
  | OptT.strings => some (Val.vstrs [])
  | _ => none

/-- The body of the `checkRequiredOption` loop (src/group.go lines
1204-1227) for a single registered option: an option with no committed
value takes its default through the normal commit path; failing that, the
`isZero` policy commits the type's zero value; failing that, the
`isRequired` policy reports the missing option. -/
def auditOne (g : GState) (name : String) (o : OptInfo) : GState × Option String :=
  match lookupA name g.values with
  | some _ => (g, none)
  | none =>
    match o.opt.dflt with
    | some d => setOptValue g name d
    | none =>
      match (if g.isZero then zeroOf o.opt.typ else none) with
      | some z => setOptValue g name z
      | none =>
        if g.isRequired then
          (g, some ("the option " ++ name ++ " in the group " ++ g.gname ++ " has no value"))
        else (g, none)

/-- The iteration of `checkRequiredOption` over the registered options;
a commit error aborts the audit (`return` in the source loop). -/
def auditFrom (g : GState) : List (String × OptInfo) → GState × Option String
  | [] => (g, none)
  | (name, o) :: rest =>
    match auditOne g name o with
    | (g1, some e) => (g1, some e)
    | (g1, none) => auditFrom g1 rest

/-- Model of `checkRequiredOption` from src/group.go (lines 1203-1229). -/
def checkRequiredOption (g : GState) : GState × Option String :=
  auditFrom g g.opts

/-- Model of `registerOpt` of the pointer variant (src/group.go lines 1348-1360):
a nil option is ignored; the duplicate check is commented out in the
source, so the new descriptor is stored unconditionally, replacing any
existing one. -/
def registerOptV2 (g : GState) (cli : Bool) (opt : Option baseOpt) : GState :=
  match opt with
  | none => g
  | some o => { g with opts := updateA o.name ⟨o, cli⟩ g.opts }

/-- The value-receiver `OptGroup` of src/group.go (lines 35-43), reduced
to the fields `registerOpt` touches. -/
structure GStateV1 where
  gname : String
  opts : List (String × OptInfo)
  values : List (String × Val)

/-- Model of `registerOpt` of the value-receiver variant (src/group.go lines
261-268): registering a name already present panics (modelled as the
error case, which carries no updated state). -/
def registerOptV1 (g : GStateV1) (cli : Bool) (o : baseOpt) : Except String GStateV1 :=
  match lookupA o.name g.opts with
  | some _ =>
    Except.error ("the option " ++ o.name ++ " has been registered into the group " ++ g.gname)
  | none => Except.ok { g with opts := updateA o.name ⟨o, cli⟩ g.opts }

theorem chain_first_failure (pre post : List (Val → Option String))
    (f : Val → Option String) (v : Val) (e : String)
    (hpre : ∀ vd ∈ pre, vd v = none) (hf : f v = some e) :
    runChain (pre ++ f :: post) v = some e := by
  induction pre with
  | nil => simp [runChain, hf]
  | cons p ps ih =>
    have hp : p v = none := hpre p (by simp)
    simp only [List.cons_append, runChain, hp]
    exact ih fun vd hv => hpre vd (by simp [hv])

/-- C6: a commit whose coerced value is rejected by a validator in the
chain returns the first failing validator's error and leaves the group
state (value map, bound fields, watch log) untouched; the validators
before the failing one all ran on the coerced value. -/
theorem validator_failure_aborts_commit (g : GState) (name : String) (o : OptInfo)
    (v v1 : Val) (pre post : List (Val → Option String)) (f : Val → Option String)
    (e : String)
    (hnil : v ≠ Val.vnil)
    (ho : lookupA name g.opts = some o)
    (hparse : parseOpt v o.opt.typ = Except.ok v1)
    (hchain : o.opt.validators = pre ++ f :: post)
    (hpre : ∀ vd ∈ pre, vd v1 = none)
    (hf : f v1 = some e) :
    setOptValue g name v = (g, some e) := by
  have hrun : runChain o.opt.validators v1 = some e := by
    rw [hchain]; exact chain_first_failure pre post f v1 e hpre hf
  simp [setOptValue, parseOptValue, hnil, ho, hparse, hrun]

/-- The descriptor of spec Scenario 5: a string option whose chain rejects
strings shorter than 1 or longer than 10 characters. -/
def opt6 : baseOpt :=
  { short := "", name := "s", help := "", dflt := none, typ := OptT.string
    validators := [strLenValidator 1 10] }

def opt6info : OptInfo := ⟨opt6, true⟩

def g6demo : GState :=
  { gname := "DEFAULT", isZero := false, isRequired := false, watchOn := true
    opts := [("s", opt6info)], values := [], fields := [], defers := []
    ignore := [], watchLog := [] }

theorem validator_failure_aborts_commit_witness :
    setOptValue g6demo "s" (Val.vstr "abcdefghijk") =
      (g6demo, some "the length of abcdefghijk is 11, not between 1 and 10") :=
  validator_failure_aborts_commit g6demo "s" opt6info
    (Val.vstr "abcdefghijk") (Val.vstr "abcdefghijk")
    [] [] (strLenValidator 1 10) "the length of abcdefghijk is 11, not between 1 and 10"
    (by simp) rfl rfl rfl (by simp) rfl

/-- C10: a deferred commit of a value that parses and validates to a zero
value (outside the ignore list) reports no error and leaves the whole
group state — defer buffer, value map, bound fields and watch log —
unchanged. -/
theorem defer_zero_value_dropped (g : GState) (name : String) (v v1 : Val)
    (hig : name ∉ g.ignore)
    (hp : parseOptValue g name v = Except.ok v1)
    (hz : IsZero v1 = true) :
    deferSetOptValue g name v = (g, none) := by
  simp [deferSetOptValue, hig, hp, hz]

def opt10 : baseOpt :=
  { short := "", name := "b", help := "", dflt := none, typ := OptT.bool
    validators := [] }

def g10demo : GState :=
  { gname := "DEFAULT", isZero := false, isRequired := false, watchOn := true
    opts := [("b", ⟨opt10, true⟩)], values := [], fields := [], defers := []
    ignore := [], watchLog := [] }

theorem defer_zero_value_dropped_witness :
    deferSetOptValue g10demo "b" (Val.vstr "0") = (g10demo, none) :=
  defer_zero_value_dropped g10demo "b" (Val.vstr "0") (Val.vbool false)
    (by simp [g10demo]) rfl rfl

/-- C4 (amended): the value-receiver `registerOpt` rejects a duplicate
name with a panic that leaves the descriptor map untouched, while the
pointer-variant `registerOpt` (duplicate check commented out) stores the
new descriptor over the existing one. -/
theorem duplicate_registration_variants (g1 : GStateV1) (g2 : GState) (cli : Bool)
    (o : baseOpt) (o1 o2 : OptInfo)
    (h1 : lookupA o.name g1.opts = some o1)
    (h2 : lookupA o.name g2.opts = some o2) :
    (∃ e, registerOptV1 g1 cli o = Except.error e) ∧
    lookupA o.name (registerOptV2 g2 cli (some o)).opts = some ⟨o, cli⟩ := by
  constructor
  · exact ⟨"the option " ++ o.name ++ " has been registered into the group " ++ g1.gname,
      by simp [registerOptV1, h1]⟩
  · simp [registerOptV2, lookupA_updateA]

def opt4a : baseOpt :=
  { short := "", name := "a", help := "", dflt := none, typ := OptT.string
    validators := [] }

def opt4b : baseOpt :=
  { short := "x", name := "a", help := "other", dflt := none, typ := OptT.int
    validators := [] }

def g4demo : GState :=
  { gname := "DEFAULT", isZero := false, isRequired := false, watchOn := false
    opts := [("a", ⟨opt4a, true⟩)], values := [], fields := [], defers := []
    ignore := [], watchLog := [] }

def g4demoV1 : GStateV1 := { gname := "DEFAULT", opts := [("a", ⟨opt4a, true⟩)], values := [] }

/-- C4 counterexample: re-registering name `a` through the pointer-variant
`registerOpt` raises no error and does not leave the descriptor map
unchanged — the stored descriptor's type tag flips from `string` to
`int`. -/
theorem duplicate_registration_replaces :
    ((registerOptV2 g4demo true (some opt4b)).opts.map fun p => (p.1, p.2.opt.typ)) =
      [("a", OptT.int)] ∧
    (g4demo.opts.map fun p => (p.1, p.2.opt.typ)) = [("a", OptT.string)] ∧
    OptT.int ≠ OptT.string := ⟨rfl, rfl, by decide⟩

theorem duplicate_registration_variants_witness :
    (∃ e, registerOptV1 g4demoV1 true opt4b = Except.error e) ∧
    lookupA "a" (registerOptV2 g4demo true (some opt4b)).opts = some ⟨opt4b, true⟩ :=
  duplicate_registration_variants g4demoV1 g4demo true opt4b ⟨opt4a, true⟩ ⟨opt4a, true⟩
    rfl rfl

theorem lookupA_foldl_flushOne (l : List (String × Val)) (g : GState) (name : String) :
    lookupA name (l.foldl flushOne g).values =
      match l.reverse.find? (fun nv => nv.1 == name) with
      | some nv => some nv.2
      | none => lookupA name g.values := by
  induction l generalizing g with
  | nil => simp
  | cons x xs ih =>
    rw [List.foldl_cons, ih (flushOne g x), List.reverse_cons, List.find?_append]
    cases hfind : xs.reverse.find? (fun nv => nv.1 == name) with
    | some nv => simp [Option.orElse]
    | none =>
      by_cases hx : x.1 = name
      · simp [Option.orElse, List.find?, hx, flushOne, lookupA_updateA, beq_iff_eq]
      · have hxb : (x.1 == name) = false := by simp [hx]
        simp [Option.orElse, List.find?, hx, hxb, flushOne, lookupA_updateA]

theorem foldl_flushOne_frame (l : List (String × Val)) (g : GState) :
    (l.foldl flushOne g).gname = g.gname ∧ (l.foldl flushOne g).watchOn = g.watchOn ∧
    (l.foldl flushOne g).watchLog = g.watchLog ∧ (l.foldl flushOne g).defers = g.defers := by
  induction l generalizing g with
  | nil => exact ⟨rfl, rfl, rfl, rfl⟩
  | cons x xs ih => simpa [flushOne] using ih (flushOne g x)

/-- C5 (amended): flushing the defer buffer clears it, announces every
flushed entry through the watch callback in reverse registration order,
and for a name deferred more than once stores the EARLIEST deferred value
(the reversed walk assigns the first-registered entry last, so it wins). -/
theorem defer_flush_earliest_wins (g : GState) (name : String) :
    (deferFlush g).defers = [] ∧
    lookupA name (deferFlush g).values =
      (match g.defers.find? (fun nv => nv.1 == name) with
       | some nv => some nv.2
       | none => lookupA name g.values) ∧
    (deferFlush g).watchLog =
      (if g.watchOn then
        g.watchLog ++ g.defers.reverse.map fun nv => (g.gname, nv.1, nv.2)
       else g.watchLog) := by
  obtain ⟨hn, hw, hl, _⟩ := foldl_flushOne_frame g.defers.reverse g
  refine ⟨rfl, ?_, ?_⟩
  · have := lookupA_foldl_flushOne g.defers.reverse g name
    rw [List.reverse_reverse] at this
    exact this
  · show (if (List.foldl flushOne g g.defers.reverse).watchOn = true then
        (List.foldl flushOne g g.defers.reverse).watchLog ++
          List.map (fun nv => ((List.foldl flushOne g g.defers.reverse).gname, nv.1, nv.2))
            g.defers.reverse
      else (List.foldl flushOne g g.defers.reverse).watchLog) = _
    rw [hn, hw, hl]

def g5demo : GState :=
  { gname := "g", isZero := false, isRequired := false, watchOn := true
    opts := [("a", ⟨opt4a, true⟩)], values := [], fields := []
    defers := [("a", Val.vstr "x1"), ("a", Val.vstr "x2")]
    ignore := [], watchLog := [] }

/-- C5 counterexample: with `x1` deferred first and `x2` deferred most
recently for the same name, the flush stores `x1`, not the most recently
deferred `x2` (both flushed entries are still announced via watch). -/
theorem defer_flush_latest_does_not_win :
    lookupA "a" (deferFlush g5demo).values = some (Val.vstr "x1") ∧
    Val.vstr "x1" ≠ Val.vstr "x2" ∧
    (deferFlush g5demo).watchLog =
      [("g", "a", Val.vstr "x2"), ("g", "a", Val.vstr "x1")] :=
  ⟨rfl, by decide, rfl⟩

theorem auditFrom_append (l1 l2 : List (String × OptInfo)) (g : GState) :
    auditFrom g (l1 ++ l2) =
      match auditFrom g l1 with
      | (g1, none) => auditFrom g1 l2
      | (g1, some e) => (g1, some e) := by
  induction l1 generalizing g with
  | nil => simp [auditFrom]
  | cons x xs ih =>
    obtain ⟨name, o⟩ := x
    simp only [List.cons_append, auditFrom]
    cases hstep : auditOne g name o with
    | mk g1 err =>
      cases err with
      | none => simp [ih]
      | some e => simp

/-- C7: when the audit reaches a registered option that has a default and
no committed value, it commits exactly the default through the normal
commit path — on success the stored value is the coerced-and-validated
default and the watch callback announces it, after which the audit
continues; if coercion or validation of the default fails, the audit
returns that error. -/
theorem audit_default_commit (g g1 : GState) (pre post : List (String × OptInfo))
    (name : String) (o : OptInfo) (d : Val)
    (hopts : g.opts = pre ++ (name, o) :: post)
    (hpre : auditFrom g pre = (g1, none))
    (hnov : lookupA name g1.values = none)
    (hd : o.opt.dflt = some d)
    (hwatch : g1.watchOn = true) :
    (∀ e, parseOptValue g1 name d = Except.error e →
       checkRequiredOption g = (g1, some e)) ∧
    (∀ v, parseOptValue g1 name d = Except.ok v →
       lookupA name (underSetOptValue g1 name v).values = some v ∧
       (underSetOptValue g1 name v).watchLog =
         g1.watchLog ++ [(g1.gname, name, v)] ∧
       checkRequiredOption g = auditFrom (underSetOptValue g1 name v) post) := by
  have hsplit : checkRequiredOption g = auditFrom g1 ((name, o) :: post) := by
    unfold checkRequiredOption
    rw [hopts, auditFrom_append, hpre]
  constructor
  · intro e he
    rw [hsplit]
    simp [auditFrom, auditOne, hnov, hd, setOptValue, he]
  · intro v hv
    refine ⟨?_, ?_, ?_⟩
    · simp [underSetOptValue, lookupA_updateA]
    · simp [underSetOptValue, hwatch]
    · rw [hsplit]
      simp [auditFrom, auditOne, hnov, hd, setOptValue, hv]

def opt7 : baseOpt :=
  { short := "", name := "port", help := "the port", dflt := some (Val.vint 80)
    typ := OptT.int, validators := [] }

def opt7info : OptInfo := ⟨opt7, true⟩

def g7demo : GState :=
  { gname := "DEFAULT", isZero := false, isRequired := false, watchOn := true
    opts := [("port", opt7info)], values := [], fields := [], defers := []
    ignore := [], watchLog := [] }

theorem audit_default_commit_witness :
    lookupA "port" (underSetOptValue g7demo "port" (Val.vint 80)).values =
      some (Val.vint 80) ∧
    (underSetOptValue g7demo "port" (Val.vint 80)).watchLog =
      g7demo.watchLog ++ [(g7demo.gname, "port", Val.vint 80)] ∧
    checkRequiredOption g7demo = auditFrom (underSetOptValue g7demo "port" (Val.vint 80)) [] :=
  (audit_default_commit g7demo g7demo [] [] "port" opt7info (Val.vint 80)
    rfl rfl rfl rfl rfl).2 (Val.vint 80) rfl

/-- The `OptGroup` of src/unnamed/part_007 (lines 9-28), the group type
used by the second `Config.Parse` of src/manager.go. -/
structure G7 where
  gname : String
  opts : List (String × OptInfo)
  values : List (String × Val)

/-- Model of `setOptValue` from src/unnamed/part_007 (lines 41-73): under the
`notEmpty` policy nil and zero values are rejected; then the validator
chain runs (the descriptor is fetched without an existence check, a
missing descriptor contributing no validators); the value is stored. -/
def setOptValue7 (g : G7) (name : String) (v : Val) (notEmpty : Bool) : Except String G7 :=
  if notEmpty ∧ v = Val.vnil then
    Except.error ("the value of " ++ name ++ " in the group " ++ g.gname ++ " is nil")
  else if notEmpty ∧ IsZero v then
    Except.error ("the value of " ++ name ++ " in the group " ++ g.gname ++ " is ZERO")
  else
    match runChain
        (match lookupA name g.opts with
         | some o => o.opt.validators
         | none => []) v with
    | some e => Except.error e
    | none => Except.ok { g with values := updateA name v g.values }

/-- The loop of `setOptions` from src/unnamed/part_007 (lines 75-92): for
each registered option that the source supplied, coerce the raw string by
the descriptor's `Parse` and commit; an option the source did not supply
commits its default when one exists; the first error aborts. -/
def setOptionsLoop :
    G7 → List (String × OptInfo) → List (String × String) → Bool → Except String G7
  | g, [], _, _ => Except.ok g
  | g, (name, o) :: rest, options, ne =>
    match lookupA name options with
    | some value =>
      match parseOpt (Val.vstr value) o.opt.typ with
      | Except.error e => Except.error e
      | Except.ok v =>
        match setOptValue7 g name v ne with
        | Except.error e => Except.error e
        | Except.ok g1 => setOptionsLoop g1 rest options ne
    | none =>
      match o.opt.dflt with
      | some d =>
        match setOptValue7 g name d ne with
        | Except.error e => Except.error e
        | Except.ok g1 => setOptionsLoop g1 rest options ne
      | none => setOptionsLoop g rest options ne

/-- Model of `setOptions` from src/unnamed/part_007. -/
def setOptions (g : G7) (options : List (String × String)) (ne : Bool) : Except String G7 :=
  setOptionsLoop g g.opts options ne

/-- The loop of `checkRequiredOption` from src/unnamed/part_007
(lines 95-112). -/
def checkRequiredLoop : G7 → List (String × OptInfo) → Bool → Except String G7
  | g, [], _ => Except.ok g
  | g, (name, o) :: rest, ne =>
    match lookupA name g.values with
    | some _ => checkRequiredLoop g rest ne
    | none =>
      match o.opt.dflt with
      | some d =>
        match setOptValue7 g name d ne with
        | Except.error e => Except.error e
        | Except.ok g1 => checkRequiredLoop g1 rest ne
      | none =>
        if ne then
          Except.error ("the option " ++ name ++ " in the group " ++ g.gname ++ " has no value")
        else checkRequiredLoop g rest ne

def checkRequiredOption7 (g : G7) (ne : Bool) : Except String G7 :=
  checkRequiredLoop g g.opts ne

/-- The second `Config` of src/manager.go (lines 816-852), reduced to the
fields `Parse` reads.  The CLI parser and the registered parsers are
modelled by their outputs: each produces per-group `(option, raw string)`
assignments or fails. -/
structure ConfigV2 where
  defaultGroup : String
  notEmpty : Bool
  groups : List (String × G7)
  cliResult : Except String (List (String × List (String × String)) × List String)
  parserResults : List (Except String (List (String × List (String × String))))

/-- The per-source commit loop of the second `Config.Parse`
(src/manager.go lines 920-926 and 942-948): each addressed group that
exists receives the source's assignments through `setOptions`. -/
def applySets :
    List (String × G7) → List (String × List (String × String)) → Bool →
      List (String × G7) × Option String
  | groups, [], _ => (groups, none)
  | groups, (gname, options) :: rest, ne =>
    match lookupA gname groups with
    | none => applySets groups rest ne
    | some g =>
      match setOptions g options ne with
      | Except.error e => (groups, some e)
      | Except.ok g1 => applySets (updateA gname g1 groups) rest ne

/-- The non-CLI parser loop of the second `Config.Parse` (src/manager.go
lines 936-949).  A parser's own error is returned (line 939); an error
from `setOptions` hits the `return nil` at line 945, modelled as an early
exit carrying `none`.  The outer `Option` distinguishes an early return
(with its carried result) from a completed loop. -/
def runParsersV2 :
    List (String × G7) → List (Except String (List (String × List (String × String)))) →
      Bool → List (String × G7) × Option (Option String)
  | groups, [], _ => (groups, none)
  | groups, p :: rest, ne =>
    match p with
    | Except.error e => (groups, some (some e))
    | Except.ok sets =>
      match applySets groups sets ne with
      | (gs1, some _) => (gs1, some none)
      | (gs1, none) => runParsersV2 gs1 rest ne

/-- The required-option audit over every group (src/manager.go lines
952-956). -/
def auditAll : List (String × G7) → Bool → List (String × G7) × Option String
  | [], _ => ([], none)
  | (gname, g) :: rest, ne =>
    match checkRequiredOption7 g ne with
    | Except.error e => ((gname, g) :: rest, some e)
    | Except.ok g1 =>
      match auditAll rest ne with
      | (rest1, r) => ((gname, g1) :: rest1, r)

/-- Line 909-911 of src/manager.go: ensure the default group exists. -/
def ensureGroup (groups : List (String × G7)) (dg : String) : List (String × G7) :=
  match lookupA dg groups with
  | some _ => groups
  | none => updateA dg { gname := dg, opts := [], values := [] } groups

/-- The second `Config.Parse` of src/manager.go (lines 898-959): ensure
the default group, run the CLI source (its errors, including `setOptions`
errors, are returned), run every registered parser (a `setOptions` error
there takes the buggy `return nil`), then audit required options. -/
def parseV2 (c : ConfigV2) : List (String × G7) × Option String :=
  let gs0 := ensureGroup c.groups c.defaultGroup
  match c.cliResult with
  | Except.error e => (gs0, some e)
  | Except.ok (sets, _args) =>
    match applySets gs0 sets c.notEmpty with
    | (gs1, some e) => (gs1, some e)
    | (gs1, none) =>
      match runParsersV2 gs1 c.parserResults c.notEmpty with
      | (gs2, some r) => (gs2, r)
      | (gs2, none) => auditAll gs2 c.notEmpty

def opt3 : baseOpt :=
  { short := "", name := "port", help := "", dflt := none, typ := OptT.int
    validators := [] }

def g3demo : G7 := { gname := "DEFAULT", opts := [("port", ⟨opt3, true⟩)], values := [] }

def cfg3demo : ConfigV2 :=
  { defaultGroup := "DEFAULT", notEmpty := false
    groups := [("DEFAULT", g3demo)]
    cliResult := Except.ok ([], [])
    parserResults := [Except.ok [("DEFAULT", [("port", "aa")])]] }

/-- C3: with a registered parser supplying the non-numeric string `aa` for
the int option `port`, the commit stage fails with a coercion error, yet
the second `Config.Parse` returns no error (`return nil` at
src/manager.go:945) and no value was committed for `port` — the claimed
`never returns nil after a source stage has failed` is violated by the
code. -/
theorem parse_swallows_parser_stage_error :
    (∃ e, setOptions g3demo [("port", "aa")] false = Except.error e) ∧
    (parseV2 cfg3demo).2 = none ∧
    lookupA "port"
      (match lookupA "DEFAULT" (parseV2 cfg3demo).1 with
       | some g => g.values
       | none => []) = none := by
  refine ⟨⟨"strconv.ParseInt: parsing aa: invalid syntax", rfl⟩, rfl, rfl⟩

/-- Modelled from the spec: the priority-aware commit primitive
`Config.SetOptValue(priority, group, opt, value)` of the v11 engine.  Its
implementation is not under src/ — only the `Parser.Priority` declaration
(src/unnamed/part_013 lines 31-76), its callers, and the README
(src/unnamed/part_005) are.  Per §4.4 of the spec and the README, a lower
priority number means higher precedence, and a commit overrides the stored
value exactly when its priority number is at most that of the commit that
set the current value (priority 0 "can cover any other value"). -/
structure PrioState where
  values : List (String × (Val × Nat))

def setOptValuePrio (st : PrioState) (p : Nat) (name : String) (v : Val) : PrioState :=
  match lookupA name st.values with
  | none => { values := updateA name (v, p) st.values }
  | some (_, p0) => if p ≤ p0 then { values := updateA name (v, p) st.values } else st

/-- Modelled from the spec: a source with a fixed priority committing its
parsed `(option, value)` pairs through the priority-aware primitive. -/
structure SourceM where
  prio : Nat
  sets : List (String × Val)

def runSource (st : PrioState) (s : SourceM) : PrioState :=
  s.sets.foldl (fun st1 nv => setOptValuePrio st1 s.prio nv.1 nv.2) st

/-- Modelled from the spec: the parse pipeline running the registered
sources in registration order, each committing with its own priority. -/
def runPipeline (st : PrioState) (srcs : List SourceM) : PrioState :=
  srcs.foldl runSource st

/-- C1: if source A has higher precedence (smaller priority number) than
source B and both supply a value for the same option, the pipeline commits
A's value whichever of the two registration orders is used. -/
theorem priority_override_order_independent (st : PrioState) (name : String)
    (va vb : Val) (pa pb : Nat) (hp : pa < pb)
    (h0 : lookupA name st.values = none) :
    lookupA name
      (runPipeline st [⟨pa, [(name, va)]⟩, ⟨pb, [(name, vb)]⟩]).values = some (va, pa) ∧
    lookupA name
      (runPipeline st [⟨pb, [(name, vb)]⟩, ⟨pa, [(name, va)]⟩]).values = some (va, pa) := by
  have hnle : ¬ pb ≤ pa := Nat.not_le.mpr hp
  have hle : pa ≤ pb := Nat.le_of_lt hp
  constructor
  · simp [runPipeline, runSource, setOptValuePrio, h0, lookupA_updateA, hnle]
  · simp [runPipeline, runSource, setOptValuePrio, h0, lookupA_updateA, hle]

theorem priority_override_order_independent_witness :
    lookupA "opt"
      (runPipeline ⟨[]⟩ [⟨0, [("opt", Val.vstr "A")]⟩, ⟨100, [("opt", Val.vstr "B")]⟩]).values =
      some (Val.vstr "A", 0) ∧
    lookupA "opt"
      (runPipeline ⟨[]⟩ [⟨100, [("opt", Val.vstr "B")]⟩, ⟨0, [("opt", Val.vstr "A")]⟩]).values =
      some (Val.vstr "A", 0) :=
  priority_override_order_independent ⟨[]⟩ "opt" (Val.vstr "A") (Val.vstr "B") 0 100
    (by decide) rfl

/-! ## The CLI source (flagParser.Parse)

`flagParser.Parse` (src/parser.go lines 130-194 and 507-554) registers
every CLI option in a `flag.FlagSet` (bools as bool flags, everything
else as string flags), runs `flagSet.Parse`, and then commits **only the
flags the parse actually set**, by walking `flagSet.Visit`.  The flag
package is Go's standard library, an external collaborator of this
repository; its argument scanner (`parseOne`) is embedded below over
character-list tokens. -/

/-- A command-line token. -/
abbrev Tok := List Char

/-- A flag registered in the flag set: its name and whether it is a bool
flag (bool flags do not consume the following argument). -/
structure FlagDef where
  fname : Tok
  isBool : Bool
  deriving Repr, DecidableEq

/-- Split a flag body at its first `=` (the value-extraction loop of the
flag package's `parseOne`). -/
def splitEq : Tok → Tok × Option Tok
  | [] => ([], none)
  | c :: cs =>
    if c = '=' then ([], some cs)
    else (c :: (splitEq cs).1, (splitEq cs).2)

theorem splitEq_some (t : Tok) :
    ∀ k v, splitEq t = (k, some v) → t = k ++ '=' :: v := by
  induction t with
  | nil => intro k v h; simp [splitEq] at h
  | cons c cs ih =>
    intro k v h
    by_cases hc : c = '='
    · simp only [splitEq, if_pos hc] at h
      obtain ⟨hk, hv⟩ := Prod.mk.injEq .. ▸ h
      subst hc
      rw [← hk, Option.some.injEq] at *
      simp_all
    · simp only [splitEq, if_neg hc] at h
      obtain ⟨hk, hv⟩ := Prod.mk.injEq .. ▸ h
      have hcs : cs = (splitEq cs).1 ++ '=' :: v := by
        apply ih
        rw [← hv]
      rw [← hk]
      simp [← hcs]

theorem splitEq_none (t : Tok) : ∀ k, splitEq t = (k, none) → k = t := by
  induction t with
  | nil => intro k h; simp [splitEq] at h; exact h
  | cons c cs ih =>
    intro k h
    by_cases hc : c = '='
    · simp [splitEq, if_pos hc] at h
    · simp only [splitEq, if_neg hc] at h
      obtain ⟨hk, hv⟩ := Prod.mk.injEq .. ▸ h
      have := ih (splitEq cs).1 (by rw [← hv])
      rw [← hk, this]

/-- Strip the (at most two) leading dashes of a token. -/
def dropDashes : Tok → Tok
  | '-' :: '-' :: t => t
  | '-' :: t => t
  | t => t

/-- A token textually mentions flag `f` when, after stripping dashes, it
is `f` itself or starts with `f=`. -/
def mentionsFlag (f a : Tok) : Bool :=
  decide (dropDashes a = f) || (f ++ ['=']).isPrefixOf (dropDashes a)

/-- Model of `flagSet` lookup of a parsed flag name (`f.formal[name]`). -/
def lookupFlag (defs : List FlagDef) (n : Tok) : Option FlagDef :=
  defs.find? fun d => d.fname == n

/-- Model of `strconv.ParseBool`, used by the flag package to set a bool flag. -/
def parseBoolTok (v : Tok) : Option Bool :=
  if v ∈ [['1'], ['t'], ['T'], "TRUE".data, "true".data, "True".data] then some true
  else if v ∈ [['0'], ['f'], ['F'], "FALSE".data, "false".data, "False".data] then some false
  else none

/-- Record one successful flag assignment and keep scanning. -/
def consFlag (k v : Tok) :
    Except String (List (Tok × Tok) × List Tok) →
      Except String (List (Tok × Tok) × List Tok)
  | Except.error e => Except.error e
  | Except.ok (asg, pos) => Except.ok ((k, v) :: asg, pos)

/-- The body of the flag package's `parseOne` after the dashes are
stripped: `c :: nm` is the flag body and `rest` the remaining arguments.
`r1` is the outcome of scanning `rest` (used when no further argument is
consumed) and `r2` the outcome of scanning `rest` without its first
element (used when a non-bool flag consumes that element as its value);
both are passed in so that the scanner itself owns all recursion. -/
def handleCore (defs : List FlagDef) (c : Char) (nm : Tok) (rest : List Tok)
    (r1 r2 : Except String (List (Tok × Tok) × List Tok)) :
    Except String (List (Tok × Tok) × List Tok) :=
  if c = '-' ∨ c = '=' then Except.error "bad flag syntax"
  else
    match lookupFlag defs (splitEq (c :: nm)).1 with
    | none => Except.error "flag provided but not defined"
    | some d =>
      if d.isBool then
        match (splitEq (c :: nm)).2 with
        | some v =>
          match parseBoolTok v with
          | some _ => consFlag (splitEq (c :: nm)).1 v r1
          | none => Except.error "invalid boolean value"
        | none => consFlag (splitEq (c :: nm)).1 "true".data r1
      else
        match (splitEq (c :: nm)).2 with
        | some v => consFlag (splitEq (c :: nm)).1 v r1
        | none =>
          match rest with
          | v0 :: _ => consFlag (splitEq (c :: nm)).1 v0 r2
          | [] => Except.error "flag needs an argument"

/-- The argument scanner of Go's flag package (`parseOne` iterated):
scanning stops at the first non-flag token (which stays in the positional
arguments) or at a bare `--` (which is consumed); a token `-name=value`
assigns directly, a bool flag without `=` assigns `true`, and any other
flag without `=` consumes the next argument as its value.  The result is
the list of assignments in scan order plus the positional leftovers. -/
def parseArgs (defs : List FlagDef) : List Tok → Except String (List (Tok × Tok) × List Tok)
  | [] => Except.ok ([], [])
  | s :: rest =>
    match s with
    | [] => Except.ok ([], s :: rest)
    | c1 :: s1 =>
      if c1 = '-' then
        match s1 with
        | [] => Except.ok ([], s :: rest)
        | c2 :: s2 =>
          if c2 = '-' then
            match s2 with
            | [] => Except.ok ([], rest)
            | c3 :: nm =>
              handleCore defs c3 nm rest (parseArgs defs rest)
                (match rest with
                 | _ :: rest2 => parseArgs defs rest2
                 | [] => Except.error "flag needs an argument")
          else
            handleCore defs c2 s2 rest (parseArgs defs rest)
              (match rest with
               | _ :: rest2 => parseArgs defs rest2
               | [] => Except.error "flag needs an argument")
      else Except.ok ([], s :: rest)

theorem parseArgs_tok_nil (defs : List FlagDef) (rest : List Tok) :
    parseArgs defs ([] :: rest) = Except.ok ([], [] :: rest) := rfl

theorem parseArgs_dash_nil (defs : List FlagDef) (rest : List Tok) :
    parseArgs defs (['-'] :: rest) = Except.ok ([], ['-'] :: rest) := rfl

theorem parseArgs_dashdash_nil (defs : List FlagDef) (rest : List Tok) :
    parseArgs defs (['-', '-'] :: rest) = Except.ok ([], rest) := by
  rw [parseArgs.eq_def]
  simp

theorem parseArgs_dashdash (defs : List FlagDef) (c : Char) (nm : Tok) (rest : List Tok) :
    parseArgs defs (('-' :: '-' :: c :: nm) :: rest) =
      handleCore defs c nm rest (parseArgs defs rest)
        (match rest with
         | _ :: rest2 => parseArgs defs rest2
         | [] => Except.error "flag needs an argument") := by
  rw [parseArgs.eq_def]
  simp

theorem parseArgs_dash (defs : List FlagDef) (c : Char) (nm : Tok) (rest : List Tok)
    (hc : ¬ c = '-') :
    parseArgs defs (('-' :: c :: nm) :: rest) =
      handleCore defs c nm rest (parseArgs defs rest)
        (match rest with
         | _ :: rest2 => parseArgs defs rest2
         | [] => Except.error "flag needs an argument") := by
  rw [parseArgs.eq_def]
  simp [hc]

theorem parseArgs_nondash (defs : List FlagDef) (c : Char) (s1 : Tok) (rest : List Tok)
    (hc : ¬ c = '-') :
    parseArgs defs ((c :: s1) :: rest) = Except.ok ([], (c :: s1) :: rest) := by
  rw [parseArgs.eq_def]
  simp [hc]

theorem consFlag_ok (k v : Tok) (r : Except String (List (Tok × Tok) × List Tok))
    (asg : List (Tok × Tok)) (pos : List Tok)
    (h : consFlag k v r = Except.ok (asg, pos)) :
    ∃ asg1, r = Except.ok (asg1, pos) ∧ asg = (k, v) :: asg1 := by
  cases r with
  | error e => simp [consFlag] at h
  | ok p =>
    obtain ⟨a1, p1⟩ := p
    simp only [consFlag] at h
    injection h with h1
    obtain ⟨ha, hp⟩ := Prod.mk.injEq .. ▸ h1
    exact ⟨a1, by rw [hp], ha.symm⟩

theorem splitEq_key_ne (f : Tok) (c : Char) (nm : Tok)
    (hne : ¬ c :: nm = f)
    (hnp : (f ++ ['=']).isPrefixOf (c :: nm) = false) :
    ¬ (splitEq (c :: nm)).1 = f := by
  intro hkf
  cases hsp : (splitEq (c :: nm)).2 with
  | none =>
    have hk : (splitEq (c :: nm)).1 = c :: nm :=
      splitEq_none (c :: nm) (splitEq (c :: nm)).1 (by rw [← hsp])
    exact hne (hk.symm.trans hkf)
  | some v =>
    have hsplit : c :: nm = (splitEq (c :: nm)).1 ++ '=' :: v :=
      splitEq_some (c :: nm) (splitEq (c :: nm)).1 v (by rw [← hsp])
    rw [hkf] at hsplit
    have hpre : (f ++ ['=']).isPrefixOf (c :: nm) = true := by
      rw [List.isPrefixOf_iff_prefix, hsplit]
      have : f ++ '=' :: v = (f ++ ['=']) ++ v := by simp
      rw [this]
      exact List.prefix_append _ _
    rw [hpre] at hnp
    cases hnp

theorem mentions_false_facts (f a : Tok) (h : mentionsFlag f a = false) :
    ¬ dropDashes a = f ∧ (f ++ ['=']).isPrefixOf (dropDashes a) = false := by
  simp only [mentionsFlag, Bool.or_eq_false_iff, decide_eq_false_iff_not] at h
  exact h

theorem handleCore_no_mention (defs : List FlagDef) (f : Tok) (c : Char) (nm : Tok)
    (rest : List Tok) (r1 r2 : Except String (List (Tok × Tok) × List Tok))
    (hne : ¬ c :: nm = f)
    (hnp : (f ++ ['=']).isPrefixOf (c :: nm) = false)
    (hr1 : ∀ asg1 pos1, r1 = Except.ok (asg1, pos1) → ∀ v1, (f, v1) ∉ asg1)
    (hr2 : ∀ asg1 pos1, r2 = Except.ok (asg1, pos1) → ∀ v1, (f, v1) ∉ asg1)
    (asg : List (Tok × Tok)) (pos : List Tok)
    (h : handleCore defs c nm rest r1 r2 = Except.ok (asg, pos)) :
    ∀ v, (f, v) ∉ asg := by
  have hkey := splitEq_key_ne f c nm hne hnp
  have step : ∀ (val : Tok) (r : Except String (List (Tok × Tok) × List Tok)),
      (∀ asg1 pos1, r = Except.ok (asg1, pos1) → ∀ v1, (f, v1) ∉ asg1) →
      consFlag (splitEq (c :: nm)).1 val r = Except.ok (asg, pos) →
      ∀ v, (f, v) ∉ asg := by
    intro val r hr hcons v hv
    obtain ⟨asg1, hp1, hasg⟩ := consFlag_ok _ _ _ _ _ hcons
    subst hasg
    rcases List.mem_cons.mp hv with h1 | h1
    · exact hkey (congrArg Prod.fst h1).symm
    · exact hr asg1 pos hp1 v h1
  unfold handleCore at h
  split at h
  · cases h
  · split at h
    · cases h
    · split at h
      · split at h
        · split at h
          · exact step _ r1 hr1 h
          · cases h
        · exact step _ r1 hr1 h
      · split at h
        · exact step _ r1 hr1 h
        · split at h
          · exact step _ r2 hr2 h
          · cases h

theorem parseArgs_no_mention (defs : List FlagDef) (f : Tok) :
    ∀ (n : Nat) (args : List Tok), args.length ≤ n →
      (∀ a ∈ args, mentionsFlag f a = false) →
      ∀ asg pos, parseArgs defs args = Except.ok (asg, pos) → ∀ v, (f, v) ∉ asg := by
  intro n
  induction n with
  | zero =>
    intro args hlen hm asg pos hp v
    have hargs : args = [] := List.eq_nil_of_length_eq_zero (Nat.le_zero.mp hlen)
    subst hargs
    simp only [parseArgs] at hp
    injection hp with h1
    obtain ⟨ha, _⟩ := Prod.mk.injEq .. ▸ h1
    rw [← ha]
    exact List.not_mem_nil _
  | succ n ih =>
    intro args hlen hm asg pos hp
    cases args with
    | nil =>
      simp only [parseArgs] at hp
      injection hp with h1
      obtain ⟨ha, _⟩ := Prod.mk.injEq .. ▸ h1
      intro v
      rw [← ha]
      exact List.not_mem_nil _
    | cons s rest =>
      have hrest : ∀ a ∈ rest, mentionsFlag f a = false := fun a ha => hm a (by simp [ha])
      have hlen1 : rest.length ≤ n := by
        simp only [List.length_cons] at hlen
        omega
      have hr1 : ∀ asg1 pos1, parseArgs defs rest = Except.ok (asg1, pos1) →
          ∀ v1, (f, v1) ∉ asg1 :=
        fun asg1 pos1 hp1 v1 => ih rest hlen1 hrest asg1 pos1 hp1 v1
      have hr2 : ∀ asg1 pos1,
          (match rest with
           | _ :: rest2 => parseArgs defs rest2
           | [] => (Except.error "flag needs an argument" :
               Except String (List (Tok × Tok) × List Tok))) = Except.ok (asg1, pos1) →
          ∀ v1, (f, v1) ∉ asg1 := by
        cases rest with
        | nil => intro asg1 pos1 hp1; cases hp1
        | cons v0 rest2 =>
          intro asg1 pos1 hp1 v1
          refine ih rest2 ?_ ?_ asg1 pos1 hp1 v1
          · simp only [List.length_cons] at hlen1; omega
          · intro a ha; exact hrest a (by simp [ha])
      have stop : ∀ X : List Tok,
          (Except.ok ([], X) : Except String (List (Tok × Tok) × List Tok)) =
            Except.ok (asg, pos) → ∀ v, (f, v) ∉ asg := by
        intro X h v
        injection h with h1
        obtain ⟨ha, _⟩ := Prod.mk.injEq .. ▸ h1
        rw [← ha]
        exact List.not_mem_nil _
      have hms := hm s (by simp)
      cases s with
      | nil =>
        rw [parseArgs_tok_nil defs rest] at hp
        exact stop _ hp
      | cons c1 s1 =>
        by_cases h1 : c1 = '-'
        · subst h1
          cases s1 with
          | nil =>
            rw [parseArgs_dash_nil defs rest] at hp
            exact stop _ hp
          | cons c2 s2 =>
            by_cases h2 : c2 = '-'
            · subst h2
              cases s2 with
              | nil =>
                rw [parseArgs_dashdash_nil defs rest] at hp
                exact stop _ hp
              | cons c3 nm =>
                rw [parseArgs_dashdash defs c3 nm rest] at hp
                obtain ⟨hne, hnp⟩ := mentions_false_facts f ('-' :: '-' :: c3 :: nm) hms
                exact handleCore_no_mention defs f c3 nm rest _ _ hne hnp hr1 hr2 asg pos hp
            · rw [parseArgs_dash defs c2 s2 rest h2] at hp
              obtain ⟨hne, hnp⟩ := mentions_false_facts f ('-' :: c2 :: s2) hms
              have hdd : dropDashes ('-' :: c2 :: s2) = c2 :: s2 := by
                simp [dropDashes, h2]
              rw [hdd] at hne hnp
              exact handleCore_no_mention defs f c2 s2 rest _ _ hne hnp hr1 hr2 asg pos hp
        · rw [parseArgs_nondash defs c1 s1 rest h1] at hp
          exact stop _ hp

theorem updateA_mem {κ α : Type} [DecidableEq κ] (k k' : κ) (v v' : α) (l : List (κ × α))
    (h : (k, v) ∈ updateA k' v' l) : (k = k' ∧ v = v') ∨ (k, v) ∈ l := by
  induction l with
  | nil =>
    simp only [updateA] at h
    rcases List.mem_cons.mp h with h1 | h1
    · exact Or.inl (by simpa using h1)
    · cases h1
  | cons p t ih =>
    obtain ⟨k0, v0⟩ := p
    by_cases h0 : k0 = k'
    · subst h0
      simp only [updateA, if_pos rfl] at h
      rcases List.mem_cons.mp h with h1 | h1
      · exact Or.inl (by simpa using h1)
      · exact Or.inr (List.mem_cons.mpr (Or.inr h1))
    · simp only [updateA, if_neg h0] at h
      rcases List.mem_cons.mp h with h1 | h1
      · exact Or.inr (List.mem_cons.mpr (Or.inl h1))
      · rcases ih h1 with h3 | h3
        · exact Or.inl h3
        · exact Or.inr (List.mem_cons.mpr (Or.inr h3))

theorem mem_foldl_updateA (l : List (Tok × Tok)) (acc : List (Tok × Tok)) (k v : Tok)
    (h : (k, v) ∈ l.foldl (fun a nv => updateA nv.1 nv.2 a) acc) :
    (∃ v1, (k, v1) ∈ l) ∨ (k, v) ∈ acc := by
  induction l generalizing acc with
  | nil => exact Or.inr (by simpa using h)
  | cons x t ih =>
    rw [List.foldl_cons] at h
    rcases ih (updateA x.1 x.2 acc) h with h1 | h1
    · rcases h1 with ⟨v1, hv1⟩
      exact Or.inl ⟨v1, List.mem_cons.mpr (Or.inr hv1)⟩
    · rcases updateA_mem k x.1 v x.2 acc h1 with ⟨hk, _⟩ | h3
      · exact Or.inl ⟨x.2, by rw [hk]; exact List.mem_cons.mpr (Or.inl rfl)⟩
      · exact Or.inr h3

/-- Model of `flagSet.Visit` exposes each *set* flag once with its final value;
committing walks exactly those (src/parser.go lines 185-191 and
549-551). -/
def visitFinal (asg : List (Tok × Tok)) : List (Tok × Tok) :=
  asg.foldl (fun acc nv => updateA nv.1 nv.2 acc) []

/-- The commits the CLI source performs: none when the flag parse failed
(`Parse` returns before `Visit`), otherwise one per set flag. -/
def flagCommits (defs : List FlagDef) (args : List Tok) : List (Tok × Tok) :=
  match parseArgs defs args with
  | Except.error _ => []
  | Except.ok (asg, _) => visitFinal asg

/-- C2: a registered CLI flag that no argument token mentions is never
committed by the CLI source: when the flag parse fails nothing at all is
committed, and when it succeeds the Visit walk contains no entry for the
flag — so its absence can neither shadow a default nor commit `false` for
a bool flag. -/
theorem cli_absent_flag_not_committed (defs : List FlagDef) (args : List Tok)
    (f : Tok) (d : FlagDef)
    (hd : d ∈ defs) (hdf : d.fname = f)
    (hm : ∀ a ∈ args, mentionsFlag f a = false) :
    ∀ v, (f, v) ∉ flagCommits defs args := by
  intro v hv
  unfold flagCommits at hv
  cases hp : parseArgs defs args with
  | error e =>
    simp only [hp] at hv
    exact absurd hv (List.not_mem_nil _)
  | ok p =>
    obtain ⟨asg, pos⟩ := p
    simp only [hp] at hv
    simp only [visitFinal] at hv
    rcases mem_foldl_updateA asg [] f v hv with ⟨v1, hv1⟩ | h1
    · exact parseArgs_no_mention defs f args.length args le_rfl hm asg pos hp v1 hv1
    · exact absurd h1 (List.not_mem_nil _)

/-- The registered CLI flags of spec Scenario 1 plus a bool flag: `ip`
(string) and `yes` (bool). -/
def c2defs : List FlagDef := [⟨"ip".data, false⟩, ⟨"yes".data, true⟩]

theorem cli_absent_flag_not_committed_witness :
    ("yes".data, "true".data) ∉
      flagCommits c2defs ["-ip".data, "0.0.0.0".data, "aa".data] :=
  cli_absent_flag_not_committed c2defs ["-ip".data, "0.0.0.0".data, "aa".data]
    "yes".data ⟨"yes".data, true⟩ (by decide) rfl (by decide) "true".data

end CfgMgr
